import Mathlib

/-!
Verification development for the WT2 movie-rating service.

This file gives a shallow embedding of the parts of the code that the checked
properties are about:

* `RatingRepository.getTopRatedAggregates` (the MongoDB aggregation pipeline:
  $lookup + $unwind, optional $match on the joined movie's genre, $group with
  $avg/$sum, $match on the vote count, $sort, $limit, and a final $project that
  rounds the average to three decimals);
* `MovieService.getTopRated` (input normalization of `genre`, `minVotes` and
  `limit`, then the call into the repository);
* `MovieService.getAllMovies` (listing with genre/year filter and pagination);
* `MovieService.getMovie` (single movie fetch, null on absence).

Documents are modelled as Lean structures, collections as lists, MongoDB
numbers as exact rationals, and JavaScript's `parseInt`/`trim`/truthiness
explicitly.  `_id` values are modelled as naturals; `_id` is unique within a
MongoDB collection, so the $lookup stage resolves at most one movie per
rating and is modelled with `List.find?`.
-/

namespace WT2

/-- A document of the `movies` collection (the fields the pipeline touches). -/
structure Movie where
  mid : Nat
  title : String
  genre : Option String
  releaseYear : Int
  deriving Repr, DecidableEq

/-- A document of the `ratings` collection: a reference to a movie `_id` and a
numeric score. -/
structure Rating where
  movie : Nat
  rating : ℚ
  deriving Repr, DecidableEq

/-- Numeric value of a (non-empty) run of decimal digit characters. -/
def digitsToNat (ds : List Char) : Nat :=
  ds.foldl (fun acc c => acc * 10 + (c.toNat - 48)) 0

/-- Longest leading run of decimal digits, or `none` when there is none. -/
def parseDigits (cs : List Char) : Option Nat :=
  let ds := cs.takeWhile (fun c => c.isDigit)
  if ds.isEmpty then none else some (digitsToNat ds)

/-- Embedding of JavaScript `parseInt(s, 10)`: skip leading whitespace, read an
optional sign followed by the longest run of decimal digits, ignore the rest of
the string; `none` models `NaN`. -/
def parseIntJS (s : String) : Option Int :=
  match s.toList.dropWhile (fun c => c.isWhitespace) with
  | '-' :: rest => (parseDigits rest).map (fun n => -(n : Int))
  | '+' :: rest => (parseDigits rest).map (fun n => (n : Int))
  | rest => (parseDigits rest).map (fun n => (n : Int))

/-- Embedding of JavaScript `String.prototype.trim`: drop whitespace from both
ends. -/
def jsTrim (s : String) : String :=
  ⟨((s.toList.dropWhile (fun c => c.isWhitespace)).reverse.dropWhile
      (fun c => c.isWhitespace)).reverse⟩

/-- Does the second list occur as the leading segment of the first? -/
def listStartsWith : List Char → List Char → Bool
  | _, [] => true
  | [], _ :: _ => false
  | a :: as, b :: bs => a == b && listStartsWith as bs

/-- Does the second list occur as a contiguous segment of the first? -/
def listContainsSeg : List Char → List Char → Bool
  | [], needle => needle.isEmpty
  | a :: as, needle => listStartsWith (a :: as) needle || listContainsSeg as needle

/-- The genre test the service builds with `new RegExp(genre, 'i')` and the
listing filter builds with `{ $regex: new RegExp(query.genre, 'i') }`: for a
pattern without regex metacharacters this is case-insensitive substring
containment of the pattern in the field. -/
def ciContains (hay pat : String) : Bool :=
  listContainsSeg hay.toLower.toList pat.toLower.toList

/-- Normalization of the `minVotes` query parameter in
`MovieService.getTopRated`:
`Math.min(100, Math.max(1, parseInt(query.minVotes ?? '3', 10) || 3))`.
In JavaScript `x || 3` replaces both `NaN` and `0` by `3`. -/
def normMinVotes (q : Option String) : Int :=
  let v : Int :=
    match parseIntJS (q.getD "3") with
    | none => 3
    | some n => if n = 0 then 3 else n
  min 100 (max 1 v)

/-- Normalization of the `limit` query parameter in `MovieService.getTopRated`:
`Math.min(50, Math.max(1, parseInt(query.limit ?? '10', 10) || 10))`. -/
def normLimit (q : Option String) : Int :=
  let v : Int :=
    match parseIntJS (q.getD "10") with
    | none => 10
    | some n => if n = 0 then 10 else n
  min 50 (max 1 v)

/-- A document produced by the $group stage of the pipeline (and, after the
final $project rounds `avgRating`, an entry of the response's `data` array). -/
structure AggRow where
  movieId : Nat
  title : String
  genre : Option String
  avgRating : ℚ
  voteCount : Nat
  deriving Repr, DecidableEq

/-- The $lookup + $unwind stages: resolve each rating's movie reference and
keep only ratings whose reference resolves (inner-join semantics; $unwind on
an empty `as` array drops the document). -/
def joinStage (movies : List Movie) (ratings : List Rating) :
    List (Rating × Movie) :=
  ratings.filterMap
    (fun r => (movies.find? (fun m => m.mid == r.movie)).map (fun m => (r, m)))

/-- Does a joined movie pass the optional genre $match stage?  A movie without
a genre field never matches a $regex condition. -/
def moviePass (pat : Option String) (m : Movie) : Bool :=
  match pat with
  | none => true
  | some p =>
    match m.genre with
    | none => false
    | some g => ciContains g p

/-- The optional `$match: { 'movie.genre': { $regex: genreRegex } }` stage,
pushed onto the pipeline only when a genre regex was provided. -/
def genreStage (pat : Option String) (l : List (Rating × Movie)) :
    List (Rating × Movie) :=
  match pat with
  | none => l
  | some p => l.filter (fun rm => moviePass (some p) rm.2)

/-- The joined rating/movie pairs that survive the join and the optional genre
filter. -/
def retained (movies : List Movie) (ratings : List Rating)
    (pat : Option String) : List (Rating × Movie) :=
  genreStage pat (joinStage movies ratings)

/-- Distinct keys of a list, first occurrences first, accumulator-based so the
definition is structurally recursive. -/
def distinctKeysAux (seen : List Nat) : List Nat → List Nat
  | [] => []
  | k :: ks =>
    if seen.contains k then distinctKeysAux seen ks
    else k :: distinctKeysAux (k :: seen) ks

/-- Distinct keys of a list, in order of first occurrence. -/
def distinctKeys (l : List Nat) : List Nat :=
  distinctKeysAux [] l

/-- The members of one $group bucket: the retained pairs whose joined movie has
the given `_id`. -/
def groupOf (l : List (Rating × Movie)) (k : Nat) : List (Rating × Movie) :=
  l.filter (fun rm => rm.2.mid == k)

/-- The $group output document for one movie `_id`: `$first` takes the fields
of the first document of the bucket, `$avg: '$rating'` the mean of the scores,
`$sum: 1` the bucket size.  An empty bucket produces no document. -/
def mkRow (l : List (Rating × Movie)) (k : Nat) : Option AggRow :=
  match groupOf l k with
  | [] => none
  | rm :: rest =>
    some { movieId := k
           title := rm.2.title
           genre := rm.2.genre
           avgRating := ((rm :: rest).map (fun q => q.1.rating)).sum /
             (((rm :: rest).length : Nat) : ℚ)
           voteCount := (rm :: rest).length }

/-- The $group stage: one output document per distinct joined movie `_id`. -/
def groupStage (l : List (Rating × Movie)) : List AggRow :=
  (distinctKeys (l.map (fun rm => rm.2.mid))).filterMap (mkRow l)

/-- The `$match: { voteCount: { $gte: Number(minVotes) } }` stage. -/
def minVotesStage (minVotes : Int) (rows : List AggRow) : List AggRow :=
  rows.filter (fun r => minVotes ≤ (r.voteCount : Int))

/-- The compound comparator of the
`$sort: { avgRating: -1, voteCount: -1, title: 1 }` stage: average rating
descending, then vote count descending, then title ascending (case-sensitive
on the stored casing). -/
def aggLE (a b : AggRow) : Bool :=
  if b.avgRating < a.avgRating then true
  else if a.avgRating < b.avgRating then false
  else if b.voteCount < a.voteCount then true
  else if a.voteCount < b.voteCount then false
  else decide (a.title ≤ b.title)

/-- The sort comparator as a relation. -/
def aggLEP (a b : AggRow) : Prop := aggLE a b = true

instance aggLEP.decidableRel : DecidableRel aggLEP := by
  unfold aggLEP
  infer_instance

/-- The $sort stage, modelled as a stable sort by the compound comparator. -/
def sortStage (rows : List AggRow) : List AggRow :=
  List.insertionSort aggLEP rows

/-- MongoDB's $round uses the round-half-to-even convention. -/
def roundHalfEven (q : ℚ) : Int :=
  if q - (⌊q⌋ : ℚ) < 1 / 2 then ⌊q⌋
  else if (1 : ℚ) / 2 < q - (⌊q⌋ : ℚ) then ⌊q⌋ + 1
  else if ⌊q⌋ % 2 = 0 then ⌊q⌋ else ⌊q⌋ + 1

/-- The `$round: ['$avgRating', 3]` expression of the final $project stage. -/
def round3 (q : ℚ) : ℚ :=
  ((roundHalfEven (q * 1000) : ℚ)) / 1000

/-- The final $project stage: shape the output and round `avgRating` to three
decimals.  Field selection is the identity in this model. -/
def projectStage (r : AggRow) : AggRow :=
  { r with avgRating := round3 r.avgRating }

/-- The pipeline of `RatingRepository.getTopRatedAggregates` up to and
including $limit, i.e. everything before the final $project: the rows still
carry the exact (unrounded) group means that the $sort stage ordered by. -/
def unroundedTopRated (movies : List Movie) (ratings : List Rating)
    (pat : Option String) (minVotes : Int) (lim : Nat) : List AggRow :=
  (sortStage (minVotesStage minVotes
    (groupStage (retained movies ratings pat)))).take lim

/-- `RatingRepository.getTopRatedAggregates`: the full aggregation pipeline,
in stage order — $lookup/$unwind, optional genre $match, $group, vote-count
$match, $sort, $limit, $project (which rounds `avgRating`). -/
def getTopRatedAggregates (movies : List Movie) (ratings : List Rating)
    (pat : Option String) (minVotes : Int) (lim : Nat) : List AggRow :=
  (unroundedTopRated movies ratings pat minVotes lim).map projectStage

/-- The query parameters of `MovieService.getTopRated`; a missing parameter is
`none`. -/
structure TopRatedQuery where
  genre : Option String := none
  minVotes : Option String := none
  limit : Option String := none

/-- The genre pattern the service passes to the repository:
`const genre = (query.genre ?? '').trim()` and
`const genreRegex = genre ? new RegExp(genre, 'i') : null`; an empty trimmed
string is falsy, so it yields no filter. -/
def genrePat (q : TopRatedQuery) : Option String :=
  let g := jsTrim (q.genre.getD "")
  if g.isEmpty then none else some g

/-- `MovieService.getTopRated`: normalize the inputs and run the aggregation.
The service's final mapping of each row (`Number(r.avgRating)`,
`Number(r.voteCount)`, `r.genre ?? null`) is the identity in this model, and
the `meta` echo object is not modelled. -/
def getTopRated (movies : List Movie) (ratings : List Rating)
    (q : TopRatedQuery) : List AggRow :=
  getTopRatedAggregates movies ratings (genrePat q)
    (normMinVotes q.minVotes) (normLimit q.limit).toNat

/-- Scores of all ratings that reference the given movie `_id` (used to state
the invariants about the group statistics). -/
def scoresFor (ratings : List Rating) (k : Nat) : List ℚ :=
  (ratings.filter (fun r => r.movie == k)).map (fun r => r.rating)

/-- The three-level tie-break relation of the specification on two adjacent
output entries: higher average first, then higher vote count, then title in
ascending order. -/
def threeLevel (a b : AggRow) : Prop :=
  b.avgRating < a.avgRating ∨
    (a.avgRating = b.avgRating ∧ b.voteCount < a.voteCount) ∨
    (a.avgRating = b.avgRating ∧ a.voteCount = b.voteCount ∧ a.title ≤ b.title)

instance threeLevel.decidable (a b : AggRow) : Decidable (threeLevel a b) := by
  unfold threeLevel
  infer_instance

/-- The number of distinct movies whose retained rating group meets the vote
threshold. -/
def qualifyingCount (movies : List Movie) (ratings : List Rating)
    (pat : Option String) (minVotes : Int) : Nat :=
  ((distinctKeys ((retained movies ratings pat).map (fun rm => rm.2.mid))).filter
    (fun k => minVotes ≤ ((groupOf (retained movies ratings pat) k).length : Int))).length

/-- The query parameters of `MovieService.getAllMovies`; a missing parameter is
`none`. -/
structure ListQuery where
  genre : Option String := none
  year : Option String := none
  page : Option String := none
  limit : Option String := none

/-- The year filter of `MovieService.getAllMovies`:
`const year = parseInt(query.year)`, kept only when not `NaN`; a missing
parameter parses to `NaN`. -/
def yearFilter (q : ListQuery) : Option Int :=
  match q.year with
  | none => none
  | some s => parseIntJS s

/-- The filter document `MovieService.getAllMovies` builds: a case-insensitive
genre regex when `query.genre` is truthy (a non-empty string), and an exact
`release_year` match when the year parses.  A movie without a genre field
never matches a $regex condition. -/
def movieMatches (q : ListQuery) (m : Movie) : Bool :=
  (match q.genre with
   | none => true
   | some g =>
     if g.isEmpty then true
     else
       match m.genre with
       | none => false
       | some mg => ciContains mg g) &&
  (match yearFilter q with
   | none => true
   | some y => m.releaseYear == y)

/-- `const page = parseInt(query.page) || 1`: `NaN` and `0` fall back to 1. -/
def normPage (q : Option String) : Int :=
  match q with
  | none => 1
  | some s =>
    match parseIntJS s with
    | none => 1
    | some n => if n = 0 then 1 else n

/-- `const limit = Math.min(parseInt(query.limit) || 10, 100)`: `NaN` and `0`
fall back to 10, then the hard cap of 100 applies (there is no lower clamp
here). -/
def normListLimit (q : Option String) : Int :=
  let v : Int :=
    match q with
    | none => 10
    | some s =>
      match parseIntJS s with
      | none => 10
      | some n => if n = 0 then 10 else n
  min v 100

/-- Modelled from the spec: `MovieRepository.getAllMovies` is not under the
sources; per the spec's listing operation it returns the requested page of the
movies matching the filter (a find with skip and limit).  Negative skip or
limit (not exercised by the checked claims) are modelled as 0. -/
def repoGetAllMovies (movies : List Movie) (q : ListQuery)
    (skip lim : Int) : List Movie :=
  ((movies.filter (movieMatches q)).drop skip.toNat).take lim.toNat

/-- Modelled from the spec: `MovieRepository.countMovies` is not under the
sources; per the spec it returns the total count of movies matching the
filter. -/
def repoCountMovies (movies : List Movie) (q : ListQuery) : Nat :=
  (movies.filter (movieMatches q)).length

/-- The value `MovieService.getAllMovies` resolves with: the page of movies,
the total count, the page number, and `pages = Math.ceil(total / limit)`. -/
structure ListResult where
  movies : List Movie
  total : Nat
  page : Int
  pages : Int
  deriving Repr, DecidableEq

/-- `MovieService.getAllMovies`: build the filter, normalize pagination, fetch
the page and the count, and shape the result. -/
def getAllMovies (movies : List Movie) (q : ListQuery) : ListResult :=
  let page := normPage q.page
  let lim := normListLimit q.limit
  let skip := (page - 1) * lim
  { movies := repoGetAllMovies movies q skip lim
    total := repoCountMovies movies q
    page := page
    pages := ⌈((repoCountMovies movies q : ℚ) / (lim : ℚ))⌉ }

/-- Modelled from the spec: `MovieRepository.getMovie` is not under the
sources; per the spec's single-movie fetch it resolves the id in the movies
collection and yields null (`none`) when no movie has that id. -/
def repoGetMovie (movies : List Movie) (id : Nat) : Option Movie :=
  movies.find? (fun m => m.mid == id)

/-- `MovieService.getMovie`: return the repository result, `movie || null`
collapsing a missing document to null (`none`, the identity on this model). -/
def getMovie (movies : List Movie) (id : Nat) : Option Movie :=
  repoGetMovie movies id

/-- The sort comparator accepts a pair exactly when the three-level tie-break
relation of the specification holds on the (unrounded) rows. -/
theorem aggLE_iff (a b : AggRow) : aggLEP a b ↔ threeLevel a b := by
  unfold aggLEP aggLE threeLevel
  split_ifs with h1 h2 h3 h4
  · exact iff_of_true rfl (Or.inl h1)
  · refine iff_of_false (by simp) ?_
    rintro (h | ⟨he, -⟩ | ⟨he, -, -⟩)
    · exact absurd h (lt_asymm h2)
    · exact absurd he (ne_of_lt h2)
    · exact absurd he (ne_of_lt h2)
  · exact iff_of_true rfl
      (Or.inr (Or.inl ⟨le_antisymm (not_lt.mp h1) (not_lt.mp h2), h3⟩))
  · refine iff_of_false (by simp) ?_
    rintro (h | ⟨-, hv⟩ | ⟨-, hv, -⟩)
    · exact h1 h
    · exact h3 hv
    · exact absurd hv (ne_of_lt h4)
  · have he : a.avgRating = b.avgRating :=
      le_antisymm (not_lt.mp h1) (not_lt.mp h2)
    have hv : a.voteCount = b.voteCount :=
      le_antisymm (not_lt.mp h3) (not_lt.mp h4)
    constructor
    · intro ht
      exact Or.inr (Or.inr ⟨he, hv, of_decide_eq_true ht⟩)
    · rintro (h | ⟨-, hv2⟩ | ⟨-, -, ht⟩)
      · exact absurd h h1
      · exact absurd hv2 h3
      · exact decide_eq_true ht

/-- The tie-break relation is total. -/
theorem threeLevel_total (a b : AggRow) : threeLevel a b ∨ threeLevel b a := by
  unfold threeLevel
  rcases lt_trichotomy a.avgRating b.avgRating with h | h | h
  · exact Or.inr (Or.inl h)
  · rcases lt_trichotomy a.voteCount b.voteCount with hv | hv | hv
    · exact Or.inr (Or.inr (Or.inl ⟨h.symm, hv⟩))
    · rcases le_total a.title b.title with ht | ht
      · exact Or.inl (Or.inr (Or.inr ⟨h, hv, ht⟩))
      · exact Or.inr (Or.inr (Or.inr ⟨h.symm, hv.symm, ht⟩))
    · exact Or.inl (Or.inr (Or.inl ⟨h, hv⟩))
  · exact Or.inl (Or.inl h)

/-- The tie-break relation is transitive. -/
theorem threeLevel_trans {a b c : AggRow} (hab : threeLevel a b)
    (hbc : threeLevel b c) : threeLevel a c := by
  rcases hab with h1 | ⟨e1, v1⟩ | ⟨e1, w1, t1⟩ <;>
    rcases hbc with h2 | ⟨e2, v2⟩ | ⟨e2, w2, t2⟩
  · exact Or.inl (h2.trans h1)
  · exact Or.inl (by rw [← e2]; exact h1)
  · exact Or.inl (by rw [← e2]; exact h1)
  · exact Or.inl (by rw [e1]; exact h2)
  · exact Or.inr (Or.inl ⟨e1.trans e2, v2.trans v1⟩)
  · exact Or.inr (Or.inl ⟨e1.trans e2, by rw [← w2]; exact v1⟩)
  · exact Or.inl (by rw [e1]; exact h2)
  · exact Or.inr (Or.inl ⟨e1.trans e2, by rw [w1]; exact v2⟩)
  · exact Or.inr (Or.inr ⟨e1.trans e2, w1.trans w2, t1.trans t2⟩)

instance aggLEP.isTotal : IsTotal AggRow aggLEP :=
  ⟨fun a b => by
    rw [aggLE_iff, aggLE_iff]
    exact threeLevel_total a b⟩

instance aggLEP.isTrans : IsTrans AggRow aggLEP :=
  ⟨fun a b c hab hbc =>
    (aggLE_iff a c).mpr
      (threeLevel_trans ((aggLE_iff a b).mp hab) ((aggLE_iff b c).mp hbc))⟩

/-- Rounding half-to-even never overshoots the floor by more than one. -/
theorem roundHalfEven_le (q : ℚ) : roundHalfEven q ≤ ⌊q⌋ + 1 := by
  unfold roundHalfEven
  split_ifs <;> omega

/-- Rounding half-to-even never undershoots the floor. -/
theorem le_roundHalfEven (q : ℚ) : ⌊q⌋ ≤ roundHalfEven q := by
  unfold roundHalfEven
  split_ifs <;> omega

/-- Rounding half-to-even is monotone. -/
theorem roundHalfEven_mono {q r : ℚ} (h : q ≤ r) :
    roundHalfEven q ≤ roundHalfEven r := by
  rcases lt_or_eq_of_le (Int.floor_le_floor h) with hlt | heq
  · have h1 := roundHalfEven_le q
    have h2 := le_roundHalfEven r
    omega
  · unfold roundHalfEven
    rw [← heq]
    split_ifs <;> first | omega | (exfalso; linarith)

/-- Rounding to three decimals is monotone. -/
theorem round3_mono {q r : ℚ} (h : q ≤ r) : round3 q ≤ round3 r := by
  unfold round3
  have h1 : q * 1000 ≤ r * 1000 := by linarith
  have h2 : ((roundHalfEven (q * 1000)) : ℚ) ≤ ((roundHalfEven (r * 1000)) : ℚ) := by
    exact_mod_cast roundHalfEven_mono h1
  linarith

/-- The genre stage is the filter by `moviePass`, also when no pattern was
pushed. -/
theorem genreStage_eq_filter (pat : Option String) (l : List (Rating × Movie)) :
    genreStage pat l = l.filter (fun rm => moviePass pat rm.2) := by
  cases pat with
  | none => simp [genreStage, moviePass]
  | some p => rfl

/-- Mapping then filtering a filtered list, as a single `filterMap`. -/
theorem filter_map_eq_filterMap (q : α → Bool) (f : α → β) (l : List α) :
    (l.filter q).map f
      = l.filterMap (fun a => if q a then some (f a) else none) := by
  induction l with
  | nil => rfl
  | cons a as ih => by_cases h : q a <;> simp [List.filter_cons, h, ih]

/-- A pair surviving the join stage consists of a rating of the collection and
the movie its reference resolves to. -/
theorem mem_joinStage {movies : List Movie} {ratings : List Rating}
    {rm : Rating × Movie} (h : rm ∈ joinStage movies ratings) :
    rm.1 ∈ ratings ∧
      movies.find? (fun m => m.mid == rm.1.movie) = some rm.2 := by
  unfold joinStage at h
  rcases List.mem_filterMap.mp h with ⟨r, hr, hmap⟩
  rcases Option.map_eq_some'.mp hmap with ⟨m, hfind, heq⟩
  cases heq
  exact ⟨hr, hfind⟩

/-- A movie found by `_id` has that `_id`. -/
theorem find?_mid_eq {movies : List Movie} {k : Nat} {m : Movie}
    (h : movies.find? (fun mm => mm.mid == k) = some m) : m.mid = k := by
  simpa using List.find?_some h

/-- The $group bucket of a movie that resolves and passes the genre filter
consists of exactly the ratings referencing that movie, each joined with that
movie. -/
theorem groupOf_retained {movies : List Movie} (ratings : List Rating)
    {pat : Option String} {k : Nat} {m : Movie}
    (hfind : movies.find? (fun mm => mm.mid == k) = some m)
    (hpass : moviePass pat m = true) :
    groupOf (retained movies ratings pat) k
      = (ratings.filter (fun r => r.movie == k)).map (fun r => (r, m)) := by
  unfold retained groupOf
  rw [genreStage_eq_filter]
  unfold joinStage
  rw [List.filter_filter, List.filter_filterMap, filter_map_eq_filterMap]
  congr 1
  funext r
  by_cases hk : r.movie = k
  · have hfun : (fun mm : Movie => mm.mid == r.movie)
        = (fun mm : Movie => mm.mid == k) := by
      funext mm
      rw [hk]
    rw [hfun, hfind]
    have hmk : (m.mid == k) = true := by simp [find?_mid_eq hfind]
    simp [Option.filter, hpass, hmk, hk]
  · cases hf : movies.find? (fun mm => mm.mid == r.movie) with
    | none => simp [hf, hk]
    | some m2 =>
      have hm2 : (m2.mid == k) = false := by
        rw [find?_mid_eq hf]
        exact beq_eq_false_iff_ne.mpr hk
      simp [hf, Option.filter, hm2, hk]

/-- What a $group output document says about its bucket. -/
theorem mkRow_some {l : List (Rating × Movie)} {k : Nat} {u : AggRow}
    (h : mkRow l k = some u) :
    u.movieId = k ∧
      u.voteCount = (groupOf l k).length ∧
      u.avgRating = ((groupOf l k).map (fun rm => rm.1.rating)).sum /
        (((groupOf l k).length : Nat) : ℚ) ∧
      groupOf l k ≠ [] := by
  unfold mkRow at h
  split at h
  · exact absurd h (by simp)
  next rm rest heq =>
    injection h with h2
    subst h2
    refine ⟨rfl, by rw [heq], by rw [heq], by simp [heq]⟩

/-- Decomposition of a row of the sorted, truncated (unrounded) pipeline: it is
a $group output of the retained pairs and it passed the vote threshold. -/
theorem mem_unroundedTopRated {movies : List Movie} {ratings : List Rating}
    {pat : Option String} {minVotes : Int} {lim : Nat} {u : AggRow}
    (h : u ∈ unroundedTopRated movies ratings pat minVotes lim) :
    (∃ k, mkRow (retained movies ratings pat) k = some u) ∧
      minVotes ≤ (u.voteCount : Int) := by
  unfold unroundedTopRated sortStage at h
  have h1 := List.take_subset _ _ h
  have h2 := (List.mem_insertionSort aggLEP).mp h1
  unfold minVotesStage at h2
  have h3 := List.mem_filter.mp h2
  refine ⟨?_, by simpa using h3.2⟩
  unfold groupStage at h3
  rcases List.mem_filterMap.mp h3.1 with ⟨k, -, hmk⟩
  exact ⟨k, hmk⟩

/-- Every row of the unrounded pipeline carries the exact mean and count of all
ratings referencing its movie. -/
theorem unrounded_stats {movies : List Movie} {ratings : List Rating}
    {pat : Option String} {minVotes : Int} {lim : Nat} {u : AggRow}
    (h : u ∈ unroundedTopRated movies ratings pat minVotes lim) :
    u.avgRating = (scoresFor ratings u.movieId).sum /
        ((scoresFor ratings u.movieId).length : ℚ) ∧
      u.voteCount = (scoresFor ratings u.movieId).length ∧
      minVotes ≤ (u.voteCount : Int) := by
  obtain ⟨⟨k, hmk⟩, hmv⟩ := mem_unroundedTopRated h
  obtain ⟨hid, hvc, havg, hne⟩ := mkRow_some hmk
  obtain ⟨rm, hrm⟩ := List.exists_mem_of_ne_nil _ hne
  unfold groupOf at hrm
  have hg := List.mem_filter.mp hrm
  have hmid : rm.2.mid = k := by simpa using hg.2
  have hg1 := hg.1
  unfold retained at hg1
  rw [genreStage_eq_filter] at hg1
  have hr := List.mem_filter.mp hg1
  have hpass : moviePass pat rm.2 = true := hr.2
  obtain ⟨-, hfind⟩ := mem_joinStage hr.1
  have hmovk : rm.1.movie = k := (find?_mid_eq hfind).symm.trans hmid
  have hfind' : movies.find? (fun mm => mm.mid == k) = some rm.2 := by
    have hfun : (fun mm : Movie => mm.mid == k)
        = (fun mm : Movie => mm.mid == rm.1.movie) := by
      funext mm
      rw [hmovk]
    rw [hfun]
    exact hfind
  have hgroup := groupOf_retained ratings hfind' hpass
  rw [hid]
  constructor
  · rw [havg, hgroup]
    simp [scoresFor, List.map_map, Function.comp_def]
  · constructor
    · rw [hvc, hgroup]
      simp [scoresFor]
    · exact hmv

/-- Length of a `filterMap` as a count of the inputs it keeps. -/
theorem length_filterMap_eq_countP (f : α → Option β) (l : List α) :
    (l.filterMap f).length = l.countP (fun a => (f a).isSome) := by
  induction l with
  | nil => rfl
  | cons a as ih =>
    cases h : f a <;> simp [List.filterMap_cons, h, List.countP_cons, ih]

/-- With a positive vote threshold, the rows surviving the vote-count $match
are in bijection with the distinct movie keys whose bucket meets the
threshold. -/
theorem minVotesStage_length {l : List (Rating × Movie)} {mv : Int}
    (hmv : 1 ≤ mv) :
    (minVotesStage mv (groupStage l)).length
      = ((distinctKeys (l.map (fun rm => rm.2.mid))).filter
          (fun k => mv ≤ ((groupOf l k).length : Int))).length := by
  unfold minVotesStage groupStage
  rw [List.filter_filterMap, length_filterMap_eq_countP,
    ← List.countP_eq_length_filter]
  apply List.countP_congr
  intro k _
  unfold mkRow
  cases hg : groupOf l k with
  | nil =>
    simp only [hg, Option.filter_none, Option.isSome_none, List.length_nil]
    constructor
    · intro h
      exact absurd h (by simp)
    · intro h
      have : mv ≤ 0 := of_decide_eq_true h
      omega
  | cons rm rest =>
    simp [hg, Option.filter]

/-- The normalized `minVotes` is at least the clamp floor. -/
theorem one_le_normMinVotes (q : Option String) : 1 ≤ normMinVotes q := by
  unfold normMinVotes
  exact le_min (by norm_num) (le_max_left _ _)

/-- The normalized `minVotes` is at most the clamp cap. -/
theorem normMinVotes_le_100 (q : Option String) : normMinVotes q ≤ 100 := by
  unfold normMinVotes
  exact min_le_left _ _

/-- The normalized top-rated `limit` is at least the clamp floor. -/
theorem one_le_normLimit (q : Option String) : 1 ≤ normLimit q := by
  unfold normLimit
  exact le_min (by norm_num) (le_max_left _ _)

/-- The normalized top-rated `limit` is at most the clamp cap. -/
theorem normLimit_le_50 (q : Option String) : normLimit q ≤ 50 := by
  unfold normLimit
  exact min_le_left _ _

/-- `Math.ceil` of a quotient of a natural by a positive integer, as integer
division. -/
theorem ceil_div_eq (t : ℕ) (l : ℤ) (hl : 0 < l) :
    ⌈((t : ℚ) / (l : ℚ))⌉ = (t + l - 1) / l := by
  have hl0 : (0 : ℚ) < (l : ℚ) := by exact_mod_cast hl
  rw [Int.ceil_eq_iff]
  constructor
  · rw [lt_div_iff₀ hl0]
    have hg : ((t + l - 1) / l - 1) * l < (t : ℤ) := by
      have hd := Int.ediv_add_emod (t + l - 1) l
      have hm0 : 0 ≤ (t + l - 1) % l := Int.emod_nonneg _ (ne_of_gt hl)
      have e1 : ((t + l - 1) / l - 1) * l = l * ((t + l - 1) / l) - l := by
        ring
      rw [e1]
      linarith
    exact_mod_cast hg
  · rw [div_le_iff₀ hl0]
    have hg : (t : ℤ) ≤ ((t + l - 1) / l) * l := by
      have hd := Int.ediv_add_emod (t + l - 1) l
      have hml : (t + l - 1) % l < l := Int.emod_lt_of_pos _ hl
      have e1 : ((t + l - 1) / l) * l = l * ((t + l - 1) / l) := by ring
      rw [e1]
      linarith
    exact_mod_cast hg

/-- Decomposition of a row of the sorted vote-filtered pipeline: it is a
$group output document and it passed the vote threshold. -/
theorem mem_sortStage_decomp {l : List (Rating × Movie)} {mv : Int}
    {u : AggRow} (h : u ∈ sortStage (minVotesStage mv (groupStage l))) :
    (∃ k, mkRow l k = some u) ∧ mv ≤ (u.voteCount : Int) := by
  unfold sortStage at h
  have h2 := (List.mem_insertionSort aggLEP).mp h
  unfold minVotesStage at h2
  have h3 := List.mem_filter.mp h2
  refine ⟨?_, by simpa using h3.2⟩
  unfold groupStage at h3
  rcases List.mem_filterMap.mp h3.1 with ⟨k, -, hmk⟩
  exact ⟨k, hmk⟩

/-- Claim C1, counterexample: the input "-5" parses, is truthy in JavaScript,
and is clamped to the floor 1 — not replaced by the default 3 as the claim
states. -/
theorem c1_counterexample :
    normMinVotes (some "-5") = 1 ∧ normMinVotes (some "-5") ≠ 3 := by
  decide

/-- Claim C1 (amended): the effective `minVotes` is 3 when the input is
missing, non-numeric, or parses to 0, and otherwise the parsed integer clamped
to [1, 100]; in particular "0" and "abc" yield the default 3, "-5" yields the
clamp floor 1, and "500" yields the cap 100; the effective value always lies
in [1, 100]. -/
theorem c1_theorem :
    normMinVotes none = 3 ∧
      normMinVotes (some "abc") = 3 ∧
      normMinVotes (some "0") = 3 ∧
      normMinVotes (some "-5") = 1 ∧
      normMinVotes (some "500") = 100 ∧
      (∀ s, parseIntJS s = none → normMinVotes (some s) = 3) ∧
      (∀ s n, parseIntJS s = some n → n ≠ 0 →
        normMinVotes (some s) = min 100 (max 1 n)) ∧
      (∀ q, 1 ≤ normMinVotes q ∧ normMinVotes q ≤ 100) := by
  refine ⟨by decide, by decide, by decide, by decide, by decide, ?_, ?_, ?_⟩
  · intro s h
    unfold normMinVotes
    simp [h]
  · intro s n h hn
    unfold normMinVotes
    simp [h, hn]
  · intro q
    exact ⟨one_le_normMinVotes q, normMinVotes_le_100 q⟩

/-- Claim C1, witness: a numeric nonzero input goes through the clamp. -/
theorem c1_witness : normMinVotes (some "7") = min 100 (max 1 7) :=
  c1_theorem.2.2.2.2.2.2.1 "7" 7 (by decide) (by decide)

/-- Claim C5, counterexample: the input "0" is numeric (it parses to 0), yet
the effective limit is the default 10, not the clamp of 0 into [1, 50]. -/
theorem c5_counterexample :
    parseIntJS "0" = some 0 ∧ normLimit (some "0") = 10 ∧
      normLimit (some "0") ≠ min 50 (max 1 0) := by
  decide

/-- Claim C5 (amended): the effective limit is 10 when the input is missing,
non-numeric, or parses to 0, and otherwise the parsed integer clamped to
[1, 50]; the number of output entries is at most the effective limit and at
most the number of distinct movies satisfying the vote threshold. -/
theorem c5_theorem (movies : List Movie) (ratings : List Rating)
    (q : TopRatedQuery) :
    (getTopRated movies ratings q).length ≤ (normLimit q.limit).toNat ∧
      (getTopRated movies ratings q).length ≤
        qualifyingCount movies ratings (genrePat q) (normMinVotes q.minVotes) ∧
      normLimit none = 10 ∧
      (∀ s, parseIntJS s = none → normLimit (some s) = 10) ∧
      (∀ s n, parseIntJS s = some n → n ≠ 0 →
        normLimit (some s) = min 50 (max 1 n)) := by
  refine ⟨?_, ?_, by decide, ?_, ?_⟩
  · unfold getTopRated getTopRatedAggregates unroundedTopRated
    rw [List.length_map, List.length_take]
    exact min_le_left _ _
  · unfold getTopRated getTopRatedAggregates unroundedTopRated qualifyingCount
    rw [List.length_map, List.length_take]
    refine le_trans (min_le_right _ _) ?_
    unfold sortStage
    rw [List.length_insertionSort]
    exact le_of_eq (minVotesStage_length (one_le_normMinVotes q.minVotes))
  · intro s h
    unfold normLimit
    simp [h]
  · intro s n h hn
    unfold normLimit
    simp [h, hn]

/-- Claim C5, witness: a concrete query obeys the numeric-input clamp. -/
theorem c5_witness : normLimit (some "99") = min 50 (max 1 99) :=
  (c5_theorem [] [] ⟨none, none, none⟩).2.2.2.2 "99" 99 (by decide) (by decide)

/-- Claim C3, counterexample: two single-vote movies with unrounded means
4.0004 and 4.0001 sort by the unrounded means, the $project stage then rounds
both to 4.000; the adjacent output pair has equal `avgRating`, equal
`voteCount`, and titles "Z", "A" in descending order, violating the claimed
three-level tie-break on the output values. -/
theorem c3_counterexample :
    getTopRated [⟨1, "Z", some "Drama", 2000⟩, ⟨2, "A", some "Drama", 2001⟩]
        [⟨1, 40004 / 10000⟩, ⟨2, 40001 / 10000⟩] ⟨none, some "1", none⟩ =
      [⟨1, "Z", some "Drama", 4, 1⟩, ⟨2, "A", some "Drama", 4, 1⟩] ∧
    ¬ threeLevel (⟨1, "Z", some "Drama", 4, 1⟩ : AggRow)
        (⟨2, "A", some "Drama", 4, 1⟩ : AggRow) :=
  ⟨by with_unfolding_all rfl, of_decide_eq_false (by with_unfolding_all rfl)⟩

/-- Claim C3 (amended): the three-level tie-break (average rating descending,
then vote count descending, then title ascending) holds between adjacent
entries with respect to the unrounded means the $sort stage ordered by; the
output is the image of that ordered, truncated list under the rounding
projection, so the output's rounded `avgRating` values are non-increasing. -/
theorem c3_theorem (movies : List Movie) (ratings : List Rating)
    (q : TopRatedQuery) :
    List.Chain' threeLevel
      (unroundedTopRated movies ratings (genrePat q) (normMinVotes q.minVotes)
        (normLimit q.limit).toNat) ∧
      getTopRated movies ratings q =
        (unroundedTopRated movies ratings (genrePat q)
          (normMinVotes q.minVotes) (normLimit q.limit).toNat).map projectStage ∧
      List.Chain' (fun a b => b.avgRating ≤ a.avgRating)
        (getTopRated movies ratings q) := by
  have hs : List.Pairwise aggLEP
      (sortStage (minVotesStage (normMinVotes q.minVotes)
        (groupStage (retained movies ratings (genrePat q))))) := by
    unfold sortStage
    exact List.sorted_insertionSort aggLEP _
  have hp : List.Pairwise threeLevel
      (unroundedTopRated movies ratings (genrePat q) (normMinVotes q.minVotes)
        (normLimit q.limit).toNat) := by
    unfold unroundedTopRated
    exact (hs.sublist (List.take_sublist _ _)).imp (fun h => (aggLE_iff _ _).mp h)
  refine ⟨hp.chain', rfl, ?_⟩
  show List.Chain' (fun a b => b.avgRating ≤ a.avgRating)
    ((unroundedTopRated movies ratings (genrePat q) (normMinVotes q.minVotes)
      (normLimit q.limit).toNat).map projectStage)
  rw [List.chain'_map]
  refine hp.chain'.imp ?_
  intro a b h
  have hab : b.avgRating ≤ a.avgRating := by
    rcases h with h | ⟨he, -⟩ | ⟨he, -, -⟩
    · exact le_of_lt h
    · exact le_of_eq he.symm
    · exact le_of_eq he.symm
  exact round3_mono hab

/-- Claim C2: in the aggregation, the $sort and $limit stages run on rows
whose `avgRating` is the exact group mean, and the rounding to three decimals
happens only in the trailing $project over the already ordered and truncated
rows. -/
theorem c2_theorem (movies : List Movie) (ratings : List Rating)
    (pat : Option String) (mv : Int) (lim : Nat) :
    getTopRatedAggregates movies ratings pat mv lim =
      ((sortStage (minVotesStage mv
        (groupStage (retained movies ratings pat)))).take lim).map projectStage ∧
      List.Pairwise aggLEP
        (sortStage (minVotesStage mv (groupStage (retained movies ratings pat)))) ∧
      (∀ u ∈ sortStage (minVotesStage mv
          (groupStage (retained movies ratings pat))),
        u.avgRating = ((groupOf (retained movies ratings pat) u.movieId).map
            (fun rm => rm.1.rating)).sum /
          (((groupOf (retained movies ratings pat) u.movieId).length : Nat) : ℚ)) := by
  refine ⟨rfl, ?_, ?_⟩
  · unfold sortStage
    exact List.sorted_insertionSort aggLEP _
  · intro u hu
    obtain ⟨⟨k, hmk⟩, -⟩ := mem_sortStage_decomp hu
    obtain ⟨hid, -, havg, -⟩ := mkRow_some hmk
    rw [hid]
    exact havg

/-- Claim C2, witness: a concrete one-movie aggregation where the sorted
unrounded row carries the exact mean of its bucket. -/
theorem c2_witness :
    (⟨1, "A", some "Drama", 5, 1⟩ : AggRow).avgRating =
      ((groupOf (retained [⟨1, "A", some "Drama", 2000⟩] [⟨1, (5 : ℚ)⟩] none)
          (⟨1, "A", some "Drama", 5, 1⟩ : AggRow).movieId).map
        (fun rm => rm.1.rating)).sum /
      (((groupOf (retained [⟨1, "A", some "Drama", 2000⟩] [⟨1, (5 : ℚ)⟩] none)
          (⟨1, "A", some "Drama", 5, 1⟩ : AggRow).movieId).length : Nat) : ℚ) := by
  have hmem : (⟨1, "A", some "Drama", 5, 1⟩ : AggRow) ∈
      sortStage (minVotesStage 1
        (groupStage (retained [⟨1, "A", some "Drama", 2000⟩] [⟨1, (5 : ℚ)⟩] none))) := by
    have he : sortStage (minVotesStage 1
        (groupStage (retained [⟨1, "A", some "Drama", 2000⟩] [⟨1, (5 : ℚ)⟩] none))) =
        [⟨1, "A", some "Drama", 5, 1⟩] := by
      with_unfolding_all rfl
    rw [he]
    exact List.mem_singleton.mpr rfl
  exact (c2_theorem [⟨1, "A", some "Drama", 2000⟩] [⟨1, (5 : ℚ)⟩] none 1 10).2.2
    _ hmem

/-- Claim C4, counterexample: one movie with scores 5, 4, 5 has arithmetic
mean 14/3, but the output entry's `avgRating` is the rounded 4.667, which is
not equal to the mean. -/
theorem c4_counterexample :
    getTopRated [⟨1, "A", some "Drama", 2000⟩] [⟨1, 5⟩, ⟨1, 4⟩, ⟨1, 5⟩]
        ⟨none, none, none⟩ =
      [⟨1, "A", some "Drama", 4667 / 1000, 3⟩] ∧
    ((4667 : ℚ) / 1000) ≠
      (scoresFor [⟨1, 5⟩, ⟨1, 4⟩, ⟨1, 5⟩] 1).sum /
        ((scoresFor [⟨1, 5⟩, ⟨1, 4⟩, ⟨1, 5⟩] 1).length : ℚ) :=
  ⟨by with_unfolding_all rfl, of_decide_eq_false (by with_unfolding_all rfl)⟩

/-- Claim C4 (amended): for every entry of the top-rated output, `avgRating`
equals the arithmetic mean of all rating scores whose movie reference equals
the entry's movie id, rounded to three decimals; `voteCount` equals the number
of those contributing ratings; and `voteCount` is at least the effective
(clamped) `minVotes`. -/
theorem c4_theorem (movies : List Movie) (ratings : List Rating)
    (q : TopRatedQuery) (e : AggRow)
    (he : e ∈ getTopRated movies ratings q) :
    e.avgRating = round3 ((scoresFor ratings e.movieId).sum /
        ((scoresFor ratings e.movieId).length : ℚ)) ∧
      e.voteCount = (scoresFor ratings e.movieId).length ∧
      normMinVotes q.minVotes ≤ (e.voteCount : Int) := by
  unfold getTopRated getTopRatedAggregates at he
  rcases List.mem_map.mp he with ⟨u, hu, rfl⟩
  obtain ⟨havg, hvc, hmv⟩ := unrounded_stats hu
  refine ⟨?_, ?_, ?_⟩
  · show round3 u.avgRating = round3 ((scoresFor ratings u.movieId).sum /
      ((scoresFor ratings u.movieId).length : ℚ))
    rw [havg]
  · show u.voteCount = (scoresFor ratings u.movieId).length
    exact hvc
  · show normMinVotes q.minVotes ≤ (u.voteCount : Int)
    exact hmv

/-- Claim C4, witness: the single output entry of a concrete query counts its
three contributing ratings. -/
theorem c4_witness :
    (⟨1, "A", some "Drama", 4667 / 1000, 3⟩ : AggRow).voteCount =
      (scoresFor [⟨1, (5 : ℚ)⟩, ⟨1, 4⟩, ⟨1, 5⟩]
        (⟨1, "A", some "Drama", 4667 / 1000, 3⟩ : AggRow).movieId).length := by
  have hmem : (⟨1, "A", some "Drama", 4667 / 1000, 3⟩ : AggRow) ∈
      getTopRated [⟨1, "A", some "Drama", 2000⟩] [⟨1, 5⟩, ⟨1, 4⟩, ⟨1, 5⟩]
        ⟨none, none, none⟩ := by
    have he : getTopRated [⟨1, "A", some "Drama", 2000⟩]
        [⟨1, 5⟩, ⟨1, 4⟩, ⟨1, 5⟩] ⟨none, none, none⟩ =
        [⟨1, "A", some "Drama", 4667 / 1000, 3⟩] := by
      with_unfolding_all rfl
    rw [he]
    exact List.mem_singleton.mpr rfl
  exact (c4_theorem [⟨1, "A", some "Drama", 2000⟩] [⟨1, 5⟩, ⟨1, 4⟩, ⟨1, 5⟩]
    ⟨none, none, none⟩ _ hmem).2.1

/-- Claim C6: the genre stage retains exactly the joined pairs whose movie
genre matches the filter, the match is case-insensitive and substring-based
("Sci-Fi Action" matches "action" and "sci", "Action/Adventure" matches
"action"), and end to end such movies survive the corresponding top-rated
queries. -/
theorem c6_theorem :
    (∀ (pat : String) (l : List (Rating × Movie)) (rm : Rating × Movie),
      rm ∈ genreStage (some pat) l ↔
        rm ∈ l ∧ moviePass (some pat) rm.2 = true) ∧
      ciContains "Sci-Fi Action" "action" = true ∧
      ciContains "Sci-Fi Action" "sci" = true ∧
      ciContains "Action/Adventure" "action" = true ∧
      getTopRated [⟨1, "X", some "Sci-Fi Action", 2000⟩]
          [⟨1, 5⟩, ⟨1, 5⟩, ⟨1, 5⟩] ⟨some "action", none, none⟩ =
        [⟨1, "X", some "Sci-Fi Action", 5, 3⟩] ∧
      getTopRated [⟨1, "X", some "Sci-Fi Action", 2000⟩]
          [⟨1, 5⟩, ⟨1, 5⟩, ⟨1, 5⟩] ⟨some "sci", none, none⟩ =
        [⟨1, "X", some "Sci-Fi Action", 5, 3⟩] ∧
      getTopRated [⟨1, "Y", some "Action/Adventure", 2000⟩]
          [⟨1, 4⟩, ⟨1, 4⟩, ⟨1, 4⟩] ⟨some "action", none, none⟩ =
        [⟨1, "Y", some "Action/Adventure", 4, 3⟩] := by
  refine ⟨?_, by with_unfolding_all rfl, by with_unfolding_all rfl,
    by with_unfolding_all rfl, by with_unfolding_all rfl,
    by with_unfolding_all rfl, by with_unfolding_all rfl⟩
  intro pat l rm
  rw [genreStage_eq_filter]
  exact List.mem_filter

/-- Claim C7: an empty or whitespace-only genre input (anything that trims to
the empty string) produces exactly the same ordered results as omitting the
genre parameter. -/
theorem c7_theorem (movies : List Movie) (ratings : List Rating) (s : String)
    (mv lim : Option String) (h : jsTrim s = "") :
    getTopRated movies ratings ⟨some s, mv, lim⟩ =
      getTopRated movies ratings ⟨none, mv, lim⟩ := by
  unfold getTopRated
  have h1 : genrePat ⟨some s, mv, lim⟩ = none := by
    unfold genrePat
    simp [h]
    rfl
  have h2 : genrePat ⟨none, mv, lim⟩ = none := by
    unfold genrePat
    simp [show jsTrim "" = "" from rfl]
    rfl
  rw [h1, h2]

/-- Claim C7, witness: a two-space genre input behaves as no filter on a
concrete data set. -/
theorem c7_witness :
    getTopRated [⟨1, "A", some "Drama", 2000⟩] [⟨1, 5⟩, ⟨1, 4⟩, ⟨1, 5⟩]
        ⟨some "  ", none, none⟩ =
      getTopRated [⟨1, "A", some "Drama", 2000⟩] [⟨1, 5⟩, ⟨1, 4⟩, ⟨1, 5⟩]
        ⟨none, none, none⟩ :=
  c7_theorem _ _ "  " none none (by decide)

/-- Claim C8: a rating whose movie reference resolves to no movie is dropped
silently by the $lookup/$unwind inner join — removing it from the input
changes nothing anywhere in the aggregation output. -/
theorem c8_theorem (movies : List Movie) (l1 l2 : List Rating) (r : Rating)
    (pat : Option String) (mv : Int) (lim : Nat)
    (h : movies.find? (fun m => m.mid == r.movie) = none) :
    getTopRatedAggregates movies (l1 ++ r :: l2) pat mv lim =
      getTopRatedAggregates movies (l1 ++ l2) pat mv lim := by
  have hj : joinStage movies (l1 ++ r :: l2) = joinStage movies (l1 ++ l2) := by
    unfold joinStage
    rw [List.filterMap_append, List.filterMap_append]
    congr 1
    rw [List.filterMap_cons]
    simp [h]
  unfold getTopRatedAggregates unroundedTopRated retained
  rw [hj]

/-- Claim C8, witness: a dangling rating in a concrete collection does not
change the aggregation. -/
theorem c8_witness :
    getTopRatedAggregates [⟨1, "A", some "Drama", 2000⟩]
        ([] ++ ⟨2, 1⟩ :: [⟨1, (5 : ℚ)⟩]) none 1 10 =
      getTopRatedAggregates [⟨1, "A", some "Drama", 2000⟩]
        ([] ++ [⟨1, (5 : ℚ)⟩]) none 1 10 :=
  c8_theorem [⟨1, "A", some "Drama", 2000⟩] [] [⟨1, (5 : ℚ)⟩] ⟨2, 1⟩ none 1 10
    (by decide)

/-- Claim C9: the listing operation pages with `page` defaulting to 1 and
`limit` defaulting to 10 under a hard cap of 100, returns the slice of the
matching movies for the requested page, the total count of matching movies,
and a page count `Math.ceil(total / limit)` computed with the effective limit
(for a positive limit, the integer formula `(total + limit - 1) / limit`). -/
theorem c9_theorem (movies : List Movie) (q : ListQuery) :
    (getAllMovies movies q).page = normPage q.page ∧
      normPage none = 1 ∧
      normListLimit none = 10 ∧
      (∀ s n, parseIntJS s = some n → n ≠ 0 →
        normListLimit (some s) = min n 100) ∧
      (getAllMovies movies q).total = (movies.filter (movieMatches q)).length ∧
      (getAllMovies movies q).movies =
        ((movies.filter (movieMatches q)).drop
          (((normPage q.page - 1) * normListLimit q.limit).toNat)).take
          (normListLimit q.limit).toNat ∧
      (getAllMovies movies q).pages =
        ⌈(((movies.filter (movieMatches q)).length : ℚ) /
          (normListLimit q.limit : ℚ))⌉ ∧
      (∀ (t : ℕ) (l : ℤ), 0 < l →
        ⌈((t : ℚ) / (l : ℚ))⌉ = (t + l - 1) / l) := by
  refine ⟨rfl, rfl, rfl, ?_, rfl, rfl, rfl, ceil_div_eq⟩
  intro s n h hn
  unfold normListLimit
  simp [h, hn]

/-- Claim C9, witness: three matching movies with limit 2 give two pages. -/
theorem c9_witness :
    (getAllMovies [⟨1, "A", some "Drama", 2000⟩, ⟨2, "B", some "Drama", 2001⟩,
        ⟨3, "C", some "Drama", 2002⟩] ⟨none, none, none, some "2"⟩).pages = 2 := by
  have h := c9_theorem [⟨1, "A", some "Drama", 2000⟩, ⟨2, "B", some "Drama", 2001⟩,
    ⟨3, "C", some "Drama", 2002⟩] ⟨none, none, none, some "2"⟩
  have h1 := h.2.2.2.2.2.2.1
  have h2 := h.2.2.2.2.2.2.2 3 2 (by norm_num)
  rw [h1]
  have hlen : (List.filter
      (movieMatches ⟨none, none, none, some "2"⟩)
      [⟨1, "A", some "Drama", 2000⟩, ⟨2, "B", some "Drama", 2001⟩,
        ⟨3, "C", some "Drama", 2002⟩]).length = 3 := by decide
  have hl : normListLimit (some "2") = 2 := by decide
  rw [hlen, hl]
  rw [h2]
  decide

/-- Claim C10: fetching a movie by an id no movie has yields null (`none`)
rather than an error, and the none-or-movie result signals absence exactly: it
is `none` precisely when no movie has the id, and a `some` result is a stored
movie with that id. -/
theorem c10_theorem (movies : List Movie) (id : Nat) :
    (getMovie movies id = none ↔ ∀ m ∈ movies, m.mid ≠ id) ∧
      (∀ m, getMovie movies id = some m → m ∈ movies ∧ m.mid = id) := by
  constructor
  · unfold getMovie repoGetMovie
    rw [List.find?_eq_none]
    constructor
    · intro h m hm
      simpa using h m hm
    · intro h m hm
      simpa using h m hm
  · intro m h
    unfold getMovie repoGetMovie at h
    exact ⟨List.mem_of_find?_eq_some h, by simpa using List.find?_some h⟩

/-- Claim C10, witness: an absent id yields null on a concrete collection. -/
theorem c10_witness : getMovie [⟨1, "A", some "Drama", 2000⟩] 2 = none :=
  (c10_theorem [⟨1, "A", some "Drama", 2000⟩] 2).1.mpr (by decide)

end WT2
